import Mathlib

/-!
Verification development for the PayOuts invoicing engine (`src/models.py`).

Modelling conventions, fixed once for the whole file:

* Python `decimal.Decimal` values are modelled as exact rationals (`ℚ`).
  `round(x, 4)` on a `Decimal` quantizes to 4 decimal places with the
  default `ROUND_HALF_EVEN` ("banker's") rounding; `decimalRound` /
  `roundTo4` below reproduce that on `ℚ`.
* A Python `datetime.date` is a proleptic-Gregorian calendar day.  It is
  used in two ways by the source: calendar fields (`year`, `month`, `day`,
  feeding `calendar.monthrange`) and day arithmetic (`timedelta`,
  comparison, `weekday()`).  We keep the calendar fields in `PyDate` and
  perform all day arithmetic on the date's proleptic-Gregorian ordinal
  (`toOrdinal`, the value of Python's `date.toordinal()`): adding a
  `timedelta(days = k)` is `+ k` on ordinals, and `date.weekday()` of the
  date with ordinal `n` is `(n + 6) % 7` because ordinal 1 (0001-01-01)
  is a Monday (so Monday = 0, ..., Saturday = 5, Sunday = 6, exactly
  Python's convention).
* Python dict-of-date keys are modelled as association lists keyed by the
  date's ordinal, in insertion order.
-/

-- Concrete rational arithmetic must evaluate inside `decide`; Batteries
-- marks these operations irreducible for elaboration performance only.
attribute [local semireducible] Rat.mul Rat.inv Rat.add Rat.sub

/-- Round a rational to the nearest integer with `ROUND_HALF_EVEN`
(ties go to the even integer), as Python `Decimal` quantization does. -/
def decimalRound (q : ℚ) : ℤ :=
  let f : ℤ := q.num.fdiv (q.den : ℤ)
  let r : ℚ := q - (f : ℚ)
  if r < 1/2 then f
  else if 1/2 < r then f + 1
  else if f % 2 = 0 then f else f + 1

/-- Python `round(x, 4)` on a `Decimal`: quantize at 4 decimal places,
half-even. -/
def roundTo4 (q : ℚ) : ℚ :=
  (decimalRound (q * 10000) : ℚ) / 10000

/-- `calendar.isleap(year)` from the Python standard library:
`year % 4 == 0 and (year % 100 != 0 or year % 400 == 0)`. -/
def isleap (year : ℕ) : Bool :=
  year % 4 = 0 && (year % 100 != 0 || year % 400 = 0)

/-- The number of days in a month: the second component of
`calendar.monthrange(year, month)` (the first component, the weekday of
the first of the month, is never used by the source). -/
def daysInMonth (year : ℕ) : ℕ → ℕ
  | 1 => 31
  | 2 => if isleap year then 29 else 28
  | 3 => 31
  | 4 => 30
  | 5 => 31
  | 6 => 30
  | 7 => 31
  | 8 => 31
  | 9 => 30
  | 10 => 31
  | 11 => 30
  | 12 => 31
  | _ => 0

/-- A Python `datetime.date`: a proleptic-Gregorian calendar day. -/
structure PyDate where
  year : ℕ
  month : ℕ
  day : ℕ
deriving DecidableEq

/-- Days in all years before year `y` (proleptic Gregorian), as in the
CPython `datetime` module's `_days_before_year`. -/
def daysBeforeYear (y : ℕ) : ℕ :=
  365 * (y - 1) + (y - 1) / 4 - (y - 1) / 100 + (y - 1) / 400

/-- Days in year `y` before month `m` (CPython `_days_before_month`). -/
def daysBeforeMonth (y m : ℕ) : ℕ :=
  ((List.range (m - 1)).map (fun i => daysInMonth y (i + 1))).sum

/-- Python `date.toordinal()`: 0001-01-01 is ordinal 1. -/
def toOrdinal (d : PyDate) : ℤ :=
  ((daysBeforeYear d.year + daysBeforeMonth d.year d.month + d.day : ℕ) : ℤ)

/-- Python `date.weekday()` of the date whose ordinal is `n`:
Monday = 0, ..., Saturday = 5, Sunday = 6. -/
def pyWeekday (n : ℤ) : ℤ :=
  (n + 6) % 7

/-- The two billing modes (`class BillMode(Enum)`). -/
inductive BillMode where
  | MONTHLY
  | HOURLY
deriving DecidableEq

/-- `TempoUser` dataclass. -/
structure TempoUser where
  account_id : String
  name : String
deriving DecidableEq

/-- `JiraIssue` dataclass. -/
structure JiraIssue where
  key : String
  jira_id : ℤ
deriving DecidableEq

/-- One raw `{key, value}` entry of a Tempo work log's
`attributes.values` list. -/
structure TempoAttribute where
  key : String
  value : String
deriving DecidableEq

/-- `WorkLog` dataclass.  `date` is the ordinal of the Python date; the
two timestamps are modelled as epoch values (they feed no computation
the claims touch).  `account` holds the attribute entry selected by
`from_tempo_api` (the source stores the full `{key, value}` entry). -/
structure WorkLog where
  worklog_id : ℤ
  jira_id : ℤ
  time_spent_seconds : ℤ
  billable_seconds : ℤ
  date : ℤ
  description : String
  created_at : ℤ
  updated_at : ℤ
  author : TempoUser
  issue : JiraIssue
  account : TempoAttribute
deriving DecidableEq

/-- `WorkLog.hours`: `billable_seconds / Decimal(60 * 60)`. -/
def WorkLog.hours (wl : WorkLog) : ℚ :=
  (wl.billable_seconds : ℚ) / (60 * 60 : ℚ)

/-- `WorkLog.filter_account_value`: the filter predicate
`attribute["key"] == "_Account_"`. -/
def WorkLog.filter_account_value (attr : TempoAttribute) : Bool :=
  attr.key == "_Account_"

/-- The `account` extraction step of `WorkLog.from_tempo_api`:
`list(filter(WorkLog.filter_account_value, values))[0]`.  Indexing an
empty list raises `IndexError` in Python; that fatal outcome is `none`. -/
def WorkLog.account_from_attributes (values : List TempoAttribute) : Option TempoAttribute :=
  (values.filter WorkLog.filter_account_value).head?

/-- `InvoiceItem` dataclass: one calendar day (keyed by its ordinal). -/
structure InvoiceItem where
  date : ℤ
  billing_mode : BillMode
  work_logs : List WorkLog
deriving DecidableEq

/-- `InvoiceItem.total_work_hours`: `sum(self.work_logs)`, which by the
`__add__`/`__radd__` chain on `WorkLog` is the decimal sum of the logs'
`hours`. -/
def InvoiceItem.total_work_hours (it : InvoiceItem) : ℚ :=
  (it.work_logs.map WorkLog.hours).sum

/-- `InvoiceItem.is_workday`:
`self.total_work_hours > 3 or self.date.weekday() < 5`. -/
def InvoiceItem.is_workday (it : InvoiceItem) : Bool :=
  decide (3 < it.total_work_hours) || decide (pyWeekday it.date < 5)

/-- `InvoiceItem.work_unit`: `total_work_hours` when HOURLY, else
`Decimal(True)`, i.e. the decimal value 1. -/
def InvoiceItem.work_unit (it : InvoiceItem) : ℚ :=
  if it.billing_mode = BillMode.HOURLY then it.total_work_hours else 1

/-- `Invoice` dataclass.  `start_date` / `invoice_date` keep their
calendar fields (they feed `calendar.monthrange` in `net_rate`); the
`items` dict is an insertion-ordered association list keyed by the
day's ordinal. -/
structure Invoice where
  start_date : PyDate
  invoice_date : PyDate
  rate : ℚ
  billing_mode : BillMode
  items : List (ℤ × InvoiceItem)

/-- The loop body of `Invoice.__post_init__`:
`next_date = start; while next_date <= invoice_date: items[next_date] =
InvoiceItem(date = next_date, billing_mode = mode); next_date += 1 day`. -/
def initItems (mode : BillMode) (next_date end_date : ℤ) : List (ℤ × InvoiceItem) :=
  if h : next_date ≤ end_date then
    (next_date, { date := next_date, billing_mode := mode, work_logs := [] })
      :: initItems mode (next_date + 1) end_date
  else []
termination_by (end_date + 1 - next_date).toNat
decreasing_by
  simp_wf
  omega

/-- Constructing an `Invoice` (dataclass fields plus `__post_init__`). -/
def mkInvoice (s e : PyDate) (rate : ℚ) (mode : BillMode) : Invoice :=
  { start_date := s
    invoice_date := e
    rate := rate
    billing_mode := mode
    items := initItems mode (toOrdinal s) (toOrdinal e) }

/-- `Invoice.total_work_unit`: `sum(self.items.values())`, i.e. the
decimal sum of the items' `work_unit`. -/
def Invoice.total_work_unit (inv : Invoice) : ℚ :=
  (inv.items.map (fun p => p.2.work_unit)).sum

/-- `Invoice.net_rate`.  Mirrors the source exactly: the HOURLY branch
keeps the rate, the MONTHLY branch compares the day-counts of the two
endpoint months and either divides by the start month's day-count or
takes the weighted blend; a single `round(rate, 4)` is applied to the
result. -/
def Invoice.net_rate (inv : Invoice) : ℚ :=
  roundTo4 (
    if inv.billing_mode = BillMode.HOURLY then inv.rate
    else
      let no_of_days_in_start_month : ℕ :=
        daysInMonth inv.start_date.year inv.start_date.month
      let no_of_days_in_end_month : ℕ :=
        daysInMonth inv.invoice_date.year inv.invoice_date.month
      if no_of_days_in_end_month = no_of_days_in_start_month then
        inv.rate / (no_of_days_in_start_month : ℚ)
      else
        let work_days_in_start_month : ℚ :=
          (no_of_days_in_start_month : ℚ) - (inv.start_date.day : ℚ) + 1
        let work_days_in_end_month : ℚ := (inv.invoice_date.day : ℚ)
        let rate_in_start_month : ℚ := inv.rate / (no_of_days_in_start_month : ℚ)
        let rate_in_end_month : ℚ := inv.rate / (no_of_days_in_end_month : ℚ)
        (rate_in_start_month * work_days_in_start_month
            + rate_in_end_month * work_days_in_end_month)
          / (work_days_in_start_month + work_days_in_end_month))

/-- `Invoice.invoice_amount`: `round(self.net_rate * self.total_work_unit, 4)`. -/
def Invoice.invoice_amount (inv : Invoice) : ℚ :=
  roundTo4 (inv.net_rate * inv.total_work_unit)

/-- The in-place mutation of the entry holding `wl.date`: the entry
keyed by exactly that date gets the log appended, every other entry is
untouched. -/
def updItem (wl : WorkLog) (p : ℤ × InvoiceItem) : ℤ × InvoiceItem :=
  if p.1 = wl.date then (p.1, { p.2 with work_logs := p.2.work_logs ++ [wl] }) else p

/-- The per-work-log step of `Consultant.__invoice_for_work_date`:
`invoice.items[work_log.date].work_logs.append(work_log)`.  A date
absent from the dict raises `KeyError` in Python; that fatal outcome is
`none`. -/
def Invoice.appendWorkLog (inv : Invoice) (wl : WorkLog) : Option Invoice :=
  if inv.items.any (fun p => p.1 == wl.date) then
    some { inv with items := inv.items.map (updItem wl) }
  else none

/-- `Consultant` dataclass (the `tempo_instance` field is the external
work-log source, an external collaborator carrying no invoicing logic). -/
structure Consultant where
  billing_mode : BillMode
  rate : ℚ
  name : Option String := none
  user_id : Option String := none

/-- `Consultant.billing_date_bounds`, on date ordinals.  `weekday` is
Python's `date.weekday()`; the two branches are the source's
Saturday/Sunday case and the Monday..Friday case. -/
def Consultant.billing_date_bounds (date : ℤ) : ℤ × ℤ :=
  let weekday := pyWeekday date
  if 5 ≤ weekday then
    (date - (weekday - 5), date + (5 + (6 - weekday)))
  else
    (date - (weekday + 2), date + (4 - weekday))

/-- The sequence of invoice dates (dict keys, in insertion order)
produced by `Consultant.invoices_in_range`:
`next_date = start; while next_date <= end: emit bounds(next_date).end;
next_date += 7 days`.  (The dict value stored under each key is the
invoice of that week; the claims under study concern the keys.) -/
def Consultant.invoices_in_range_dates (next_date end_date : ℤ) : List ℤ :=
  if h : next_date ≤ end_date then
    (Consultant.billing_date_bounds next_date).2
      :: Consultant.invoices_in_range_dates (next_date + 7) end_date
  else []
termination_by (end_date + 1 - next_date).toNat
decreasing_by
  simp_wf
  omega

/-- The inclusive ordinal range `[s, e]` as a list, low to high. -/
def ordRange (s e : ℤ) : List ℤ :=
  (List.range (e + 1 - s).toNat).map (fun (i : ℕ) => s + (i : ℤ))

/-- The number of iterations of the `invoices_in_range` loop. -/
def weekIters (s e : ℤ) : ℕ :=
  if s ≤ e then (e - s).toNat / 7 + 1 else 0

/-- A sample work log of exactly 3 billable hours dated Saturday
2021-01-23 (ordinal 737813). -/
def wlSat3h : WorkLog :=
  { worklog_id := 1, jira_id := 11, time_spent_seconds := 10800,
    billable_seconds := 10800, date := 737813, description := "dev work",
    created_at := 1611400000, updated_at := 1611400000,
    author := { account_id := "u1", name := "Alice" },
    issue := { key := "PROJ-1", jira_id := 101 },
    account := { key := "_Account_", value := "ACME" } }

/-- A sample work log of 2 billable hours dated Sunday 2021-01-24
(ordinal 737814). -/
def wlSun2h : WorkLog :=
  { wlSat3h with
    worklog_id := 2
    time_spent_seconds := 7200
    billable_seconds := 7200
    date := 737814 }

/-- A sample work log of 1 billable hour dated Sunday 2021-01-24
(ordinal 737814). -/
def wlSun1h : WorkLog :=
  { wlSat3h with
    worklog_id := 3
    time_spent_seconds := 3600
    billable_seconds := 3600
    date := 737814 }

/-- An invoice item for Saturday 2021-01-23 holding exactly 3 logged
hours. -/
def itemSat3h : InvoiceItem :=
  { date := 737813, billing_mode := BillMode.HOURLY, work_logs := [wlSat3h] }

/-- A MONTHLY invoice item for Sunday 2021-01-24 holding two work
logs. -/
def itemSunMonthly : InvoiceItem :=
  { date := 737814, billing_mode := BillMode.MONTHLY,
    work_logs := [wlSun2h, wlSun1h] }

/-- A MONTHLY invoice for the billing week 2021-01-23 .. 2021-01-29
(ordinals 737813 .. 737819) at monthly rate 9680. -/
def invJanMonthly : Invoice :=
  mkInvoice ⟨2021, 1, 23⟩ ⟨2021, 1, 29⟩ 9680 BillMode.MONTHLY

/-- An HOURLY invoice over the same week whose rate 0.00004 needs more
than 4 decimal places. -/
def invTinyHourly : Invoice :=
  mkInvoice ⟨2021, 1, 23⟩ ⟨2021, 1, 29⟩ (1 / 25000) BillMode.HOURLY

/-- An HOURLY invoice over the same week at rate 50. -/
def invHourly50 : Invoice :=
  mkInvoice ⟨2021, 1, 23⟩ ⟨2021, 1, 29⟩ 50 BillMode.HOURLY


/-- Closed form of `billing_date_bounds`: the start is the last Saturday
at or before the date (a date with ordinal `n` is a Saturday exactly
when `(n + 1) % 7 = 0`), the end is 6 days later. -/
theorem Consultant.billing_date_bounds_eq (n : ℤ) :
    Consultant.billing_date_bounds n = (n - (n + 1) % 7, n - (n + 1) % 7 + 6) := by
  simp only [Consultant.billing_date_bounds, pyWeekday]
  split <;> simp only [Prod.mk.injEq] <;> constructor <;> omega

theorem ordRange_nil (s e : ℤ) (h : e < s) : ordRange s e = [] := by
  unfold ordRange
  have h0 : (e + 1 - s).toNat = 0 := by omega
  simp [h0]

theorem ordRange_cons (s e : ℤ) (h : s ≤ e) : ordRange s e = s :: ordRange (s + 1) e := by
  unfold ordRange
  have h1 : (e + 1 - s).toNat = (e + 1 - (s + 1)).toNat + 1 := by omega
  rw [h1, List.range_succ_eq_map, List.map_cons, List.map_map]
  simp only [Nat.cast_zero, add_zero]
  refine congrArg (List.cons s) (List.map_congr_left ?_)
  intro i _
  simp only [Function.comp_apply]
  push_cast
  ring

/-- The `__post_init__` loop produces exactly one fresh item per day of
the inclusive span, in date order. -/
theorem initItems_eq (mode : BillMode) :
    ∀ (n : ℕ) (s e : ℤ), (e + 1 - s).toNat = n →
      initItems mode s e = (ordRange s e).map
        (fun d => (d, { date := d, billing_mode := mode, work_logs := [] })) := by
  intro n
  induction n with
  | zero =>
    intro s e h
    rw [initItems, dif_neg (by omega), ordRange_nil s e (by omega)]
    rfl
  | succ k ih =>
    intro s e h
    have hs : s ≤ e := by omega
    rw [initItems, dif_pos hs, ordRange_cons s e hs, List.map_cons,
      ih (s + 1) e (by omega)]

/-- The `invoices_in_range` loop emits the invoice date of the start
week and then steps it by 7 days, once per iteration. -/
theorem invoices_in_range_dates_eq :
    ∀ (n : ℕ) (s e : ℤ), (e + 1 - s).toNat ≤ n →
      Consultant.invoices_in_range_dates s e =
        (List.range (weekIters s e)).map
          (fun (k : ℕ) => (Consultant.billing_date_bounds s).2 + 7 * (k : ℤ)) := by
  intro n
  induction n with
  | zero =>
    intro s e h
    rw [Consultant.invoices_in_range_dates, dif_neg (by omega)]
    unfold weekIters
    rw [if_neg (by omega)]
    rfl
  | succ k ih =>
    intro s e h
    rw [Consultant.invoices_in_range_dates]
    by_cases hs : s ≤ e
    · rw [dif_pos hs, ih (s + 7) e (by omega)]
      have hiters : weekIters s e = weekIters (s + 7) e + 1 := by
        unfold weekIters
        by_cases h7 : s + 7 ≤ e
        · rw [if_pos hs, if_pos h7]
          omega
        · rw [if_pos hs, if_neg h7]
          omega
      have hend : (Consultant.billing_date_bounds (s + 7)).2 =
          (Consultant.billing_date_bounds s).2 + 7 := by
        rw [Consultant.billing_date_bounds_eq, Consultant.billing_date_bounds_eq]
        simp only
        omega
      rw [hiters, hend, List.range_succ_eq_map, List.map_cons, List.map_map]
      simp only [Nat.cast_zero, mul_zero, add_zero]
      refine congrArg _ (List.map_congr_left ?_)
      intro i _
      simp only [Function.comp_apply]
      push_cast
      ring
    · rw [dif_neg hs]
      unfold weekIters
      rw [if_neg hs]
      rfl

theorem mem_ordRange (s e d : ℤ) : d ∈ ordRange s e ↔ s ≤ d ∧ d ≤ e := by
  unfold ordRange
  simp only [List.mem_map, List.mem_range]
  constructor
  · rintro ⟨i, hi, rfl⟩
    omega
  · intro hd
    refine ⟨(d - s).toNat, by omega, by omega⟩

/-- C2: for every date `d`, `billing_date_bounds d` returns a pair
`(start, end)` with `end - start` equal to 6 days, `start` falling on a
Saturday (Python weekday 5), `end` falling on a Friday (Python weekday
4), and `start ≤ d ≤ end`. -/
theorem claim_C2 (d : ℤ) :
    (Consultant.billing_date_bounds d).2 - (Consultant.billing_date_bounds d).1 = 6 ∧
    pyWeekday (Consultant.billing_date_bounds d).1 = 5 ∧
    pyWeekday (Consultant.billing_date_bounds d).2 = 4 ∧
    (Consultant.billing_date_bounds d).1 ≤ d ∧ d ≤ (Consultant.billing_date_bounds d).2 := by
  rw [Consultant.billing_date_bounds_eq]
  unfold pyWeekday
  dsimp only
  refine ⟨by omega, by omega, by omega, by omega, by omega⟩

/-- C10: any date `d2` lying inside the billing week of `d` has exactly
the same billing bounds as `d`; in particular the bounds map is
idempotent on its own start date and the Saturday-to-Friday weeks
partition the calendar. -/
theorem claim_C10 (d d2 : ℤ)
    (h1 : (Consultant.billing_date_bounds d).1 ≤ d2)
    (h2 : d2 ≤ (Consultant.billing_date_bounds d).2) :
    Consultant.billing_date_bounds d2 = Consultant.billing_date_bounds d := by
  rw [Consultant.billing_date_bounds_eq] at h1 h2
  dsimp only at h1 h2
  rw [Consultant.billing_date_bounds_eq, Consultant.billing_date_bounds_eq]
  simp only [Prod.mk.injEq]
  constructor <;> omega

/-- Witness for C10 at concrete dates: 2021-01-27 (ordinal 737817) lies
in the week of 2021-01-25 (ordinal 737815), and both produce the same
bounds. -/
theorem claim_C10_witness :
    Consultant.billing_date_bounds 737817 = Consultant.billing_date_bounds 737815 :=
  claim_C10 737815 737817 (by decide) (by decide)

/-- C7 (amended): for `start ≤ end`, the invoice dates produced by
`invoices_in_range` are strictly increasing by exactly 7 days between
consecutive entries in insertion order, and the result contains the
invoice of exactly those Saturday-to-Friday weeks whose Saturday start
`σ` satisfies `weekStart(start) ≤ σ ≤ weekStart(start) + (end - start)`
(the weeks of the dates `start, start + 7, ...` not exceeding `end`).
The claim's original coverage condition — every week whose start falls
within `[start, end]` — fails; see the counterexample. -/
theorem claim_C7 (s e : ℤ) (hse : s ≤ e) :
    (∀ (i : ℕ) (h : i + 1 < (Consultant.invoices_in_range_dates s e).length),
      (Consultant.invoices_in_range_dates s e).get ⟨i + 1, h⟩ =
        (Consultant.invoices_in_range_dates s e).get ⟨i, by omega⟩ + 7) ∧
    (∀ d : ℤ,
      (Consultant.billing_date_bounds d).2 ∈ Consultant.invoices_in_range_dates s e ↔
        ((Consultant.billing_date_bounds s).1 ≤ (Consultant.billing_date_bounds d).1 ∧
          (Consultant.billing_date_bounds d).1 ≤
            (Consultant.billing_date_bounds s).1 + (e - s))) := by
  have hL := invoices_in_range_dates_eq ((e + 1 - s).toNat) s e le_rfl
  have hiters : weekIters s e = (e - s).toNat / 7 + 1 := by
    unfold weekIters
    rw [if_pos hse]
  constructor
  · intro i h
    rw [List.get_of_eq hL ⟨i + 1, h⟩, List.get_of_eq hL ⟨i, by omega⟩]
    simp only [Fin.cast, List.get_eq_getElem, List.getElem_map, List.getElem_range]
    push_cast
    ring
  · intro d
    rw [hL, hiters]
    simp only [List.mem_map, List.mem_range]
    rw [Consultant.billing_date_bounds_eq, Consultant.billing_date_bounds_eq]
    dsimp only
    constructor
    · rintro ⟨k, hk, heq⟩
      constructor <;> omega
    · rintro ⟨hd1, hd2⟩
      refine ⟨((d - (d + 1) % 7) - (s - (s + 1) % 7)).toNat / 7, by omega, by omega⟩

/-- Counterexample to C7 as stated: take `start` = 2021-01-22, a Friday
(ordinal 737812), and `end` = 2021-01-23, a Saturday (ordinal 737813).
The week starting at 737813 has its start date inside `[start, end]`,
yet its invoice date (737819, Friday 2021-01-29) is absent from the
result, which holds only the invoice dated 737812. -/
theorem claim_C7_cex :
    (Consultant.billing_date_bounds 737813).1 = 737813 ∧
    (737812 : ℤ) ≤ (Consultant.billing_date_bounds 737813).1 ∧
    (Consultant.billing_date_bounds 737813).1 ≤ 737813 ∧
    (Consultant.billing_date_bounds 737813).2 ∉
      Consultant.invoices_in_range_dates 737812 737813 := by
  refine ⟨by decide, by decide, by decide, ?_⟩
  rw [invoices_in_range_dates_eq 2 737812 737813 (by decide)]
  decide

/-- Witness for C7 at concrete dates: over the range 2021-01-23
(ordinal 737813, Saturday) to 2021-02-05 (ordinal 737826, Friday), the
invoice date of the week of 2021-01-30 (ordinal 737820) appears in the
result. -/
theorem claim_C7_witness :
    (Consultant.billing_date_bounds 737820).2 ∈
      Consultant.invoices_in_range_dates 737813 737826 :=
  ((claim_C7 737813 737826 (by decide)).2 737820).mpr (by decide)

/-- C4: an `InvoiceItem` on a Monday..Friday date is a workday
regardless of logged hours; on a Saturday or Sunday it is a workday
exactly when the summed billable hours strictly exceed 3. -/
theorem claim_C4 (it : InvoiceItem) :
    (pyWeekday it.date < 5 → it.is_workday = true) ∧
    (5 ≤ pyWeekday it.date → (it.is_workday = true ↔ 3 < it.total_work_hours)) := by
  unfold InvoiceItem.is_workday
  simp only [Bool.or_eq_true, decide_eq_true_eq]
  constructor
  · intro h
    exact Or.inr h
  · intro h
    constructor
    · rintro (h3 | h5)
      · exact h3
      · omega
    · intro h3
      exact Or.inl h3

/-- Witness for C4: a Saturday item with exactly 3.0 logged hours is
not a workday. -/
theorem claim_C4_witness : itemSat3h.is_workday = false := by
  have h := (claim_C4 itemSat3h).2 (by decide)
  have h3 : ¬(3 < itemSat3h.total_work_hours) := by decide
  cases hb : itemSat3h.is_workday with
  | false => rfl
  | true => exact absurd (h.mp hb) h3

/-- C5: `work_unit` is `total_work_hours` in HOURLY mode and the fixed
value 1 in MONTHLY mode, whatever the day and its work logs are; and
`total_work_hours` of an item with no logs is 0. -/
theorem claim_C5 (it : InvoiceItem) :
    (it.billing_mode = BillMode.HOURLY → it.work_unit = it.total_work_hours) ∧
    (it.billing_mode = BillMode.MONTHLY → it.work_unit = 1) ∧
    (it.work_logs = [] → it.total_work_hours = 0) := by
  refine ⟨fun h => ?_, fun h => ?_, fun h => ?_⟩
  · unfold InvoiceItem.work_unit
    rw [if_pos h]
  · unfold InvoiceItem.work_unit
    rw [if_neg (by rw [h]; exact fun hc => BillMode.noConfusion hc)]
  · unfold InvoiceItem.total_work_hours
    rw [h]
    rfl

/-- Witness for C5: a MONTHLY Sunday item holding two work logs (a
non-workday) still contributes a work unit of exactly 1. -/
theorem claim_C5_witness : itemSunMonthly.work_unit = 1 :=
  (claim_C5 itemSunMonthly).2.1 rfl

/-- C9: extracting the `account` attribute from a raw work-log record
fails (Python `IndexError` on the empty filter result, modelled as
`none`) exactly when no attribute has key `"_Account_"`; when at least
one such attribute exists the first one in list order is selected. -/
theorem claim_C9 (values : List TempoAttribute) :
    (WorkLog.account_from_attributes values = none ↔
      ∀ a ∈ values, a.key ≠ "_Account_") ∧
    (∀ (pre : List TempoAttribute) (a : TempoAttribute) (post : List TempoAttribute),
      values = pre ++ a :: post → (∀ b ∈ pre, b.key ≠ "_Account_") →
      a.key = "_Account_" →
      WorkLog.account_from_attributes values = some a) := by
  constructor
  · unfold WorkLog.account_from_attributes
    rw [List.head?_eq_none_iff, List.filter_eq_nil_iff]
    simp only [WorkLog.filter_account_value, beq_iff_eq]
  · rintro pre a post rfl hpre ha
    unfold WorkLog.account_from_attributes
    rw [List.filter_append]
    have hp : pre.filter WorkLog.filter_account_value = [] := by
      rw [List.filter_eq_nil_iff]
      intro b hb
      simp only [WorkLog.filter_account_value, beq_iff_eq]
      exact hpre b hb
    rw [hp, List.nil_append, List.filter_cons,
      if_pos (by simp only [WorkLog.filter_account_value, beq_iff_eq]; exact ha)]
    rfl

/-- Witness for C9: with a non-matching attribute first and two
matching ones after it, the first matching attribute is selected. -/
theorem claim_C9_witness :
    WorkLog.account_from_attributes
      [{ key := "x", value := "1" }, { key := "_Account_", value := "A" },
        { key := "_Account_", value := "B" }] =
      some { key := "_Account_", value := "A" } :=
  (claim_C9 _).2 [{ key := "x", value := "1" }] { key := "_Account_", value := "A" }
    [{ key := "_Account_", value := "B" }] rfl (by decide) rfl

/-- Rounding an integer-valued rational changes nothing. -/
theorem decimalRound_intCast (n : ℤ) : decimalRound (n : ℚ) = n := by
  unfold decimalRound
  rw [Rat.intCast_num, Rat.intCast_den]
  simp only [Int.fdiv_one, Nat.cast_one]
  rw [if_pos (by norm_num)]

/-- `round(q, 4)` is the identity on rationals with at most 4 decimal
places. -/
theorem roundTo4_of_den_one (q : ℚ) (h : (q * 10000).den = 1) : roundTo4 q = q := by
  unfold roundTo4
  have h1 : (((q * 10000).num : ℤ) : ℚ) = q * 10000 := by
    rw [← Rat.den_eq_one_iff]
    exact h
  have h2 : decimalRound (q * 10000) = (q * 10000).num := by
    conv_lhs => rw [← h1]
    exact decimalRound_intCast _
  rw [h2, h1]
  field_simp

/-- C1: for a MONTHLY invoice, if the months of `start_date` and
`invoice_date` have the same number of days then
`net_rate = round(rate / days_in_start_month, 4)`; otherwise `net_rate`
is the rounded weighted blend of the two per-day rates, weighted by
`work_days_in_start_month = days_in_start_month - start_date.day + 1`
and `work_days_in_end_month = invoice_date.day`, in exact decimal
arithmetic. -/
theorem claim_C1 (inv : Invoice) (hm : inv.billing_mode = BillMode.MONTHLY) :
    (daysInMonth inv.start_date.year inv.start_date.month =
        daysInMonth inv.invoice_date.year inv.invoice_date.month →
      inv.net_rate =
        roundTo4 (inv.rate /
          (daysInMonth inv.start_date.year inv.start_date.month : ℚ))) ∧
    (daysInMonth inv.start_date.year inv.start_date.month ≠
        daysInMonth inv.invoice_date.year inv.invoice_date.month →
      inv.net_rate =
        roundTo4 (
          ((inv.rate / (daysInMonth inv.start_date.year inv.start_date.month : ℚ)) *
              ((daysInMonth inv.start_date.year inv.start_date.month : ℚ)
                - (inv.start_date.day : ℚ) + 1) +
            (inv.rate / (daysInMonth inv.invoice_date.year inv.invoice_date.month : ℚ)) *
              (inv.invoice_date.day : ℚ)) /
          (((daysInMonth inv.start_date.year inv.start_date.month : ℚ)
              - (inv.start_date.day : ℚ) + 1) + (inv.invoice_date.day : ℚ)))) := by
  constructor
  · intro hd
    simp [Invoice.net_rate, hm, hd]
  · intro hd
    simp [Invoice.net_rate, hm, Ne.symm hd]

/-- Witness for C1: the January 2021 billing week 01-23 .. 01-29 at
monthly rate 9680 stays inside a 31-day month, and
`net_rate = round(9680/31, 4) = 312.2581`. -/
theorem claim_C1_witness :
    invJanMonthly.billing_mode = BillMode.MONTHLY ∧
    invJanMonthly.net_rate =
      roundTo4 (invJanMonthly.rate /
        (daysInMonth invJanMonthly.start_date.year invJanMonthly.start_date.month : ℚ)) ∧
    invJanMonthly.net_rate = 3122581 / 10000 :=
  ⟨rfl, (claim_C1 invJanMonthly rfl).1 (by decide), by decide⟩

/-- Every item built by invoice construction carries the invoice's
billing mode, its own date as key, and no work logs. -/
theorem mkInvoice_item_fields (s e : PyDate) (r : ℚ) (m : BillMode) :
    ∀ p ∈ (mkInvoice s e r m).items,
      p.2.billing_mode = m ∧ p.2.date = p.1 ∧ p.2.work_logs = [] := by
  intro p hp
  simp only [mkInvoice] at hp
  rw [initItems_eq m ((toOrdinal e + 1 - toOrdinal s).toNat) _ _ rfl] at hp
  simp only [List.mem_map] at hp
  obtain ⟨d, -, rfl⟩ := hp
  exact ⟨rfl, rfl, rfl⟩

/-- The keys of a freshly constructed invoice are the inclusive ordinal
range of its span, in order. -/
theorem mkInvoice_keys (s e : PyDate) (r : ℚ) (m : BillMode) :
    (mkInvoice s e r m).items.map Prod.fst = ordRange (toOrdinal s) (toOrdinal e) := by
  simp only [mkInvoice]
  rw [initItems_eq m ((toOrdinal e + 1 - toOrdinal s).toNat) _ _ rfl, List.map_map]
  exact List.map_id _

theorem ordRange_length (s e : ℤ) : (ordRange s e).length = (e + 1 - s).toNat := by
  unfold ordRange
  rw [List.length_map, List.length_range]

theorem ordRange_nodup (s e : ℤ) : (ordRange s e).Nodup := by
  unfold ordRange
  refine List.Nodup.map ?_ (List.nodup_range _)
  intro a b hab
  dsimp only at hab
  omega

/-- `appendWorkLog` never adds, removes or re-keys an entry. -/
theorem appendWorkLog_keys (inv inv' : Invoice) (wl : WorkLog)
    (h : inv.appendWorkLog wl = some inv') :
    inv'.items.map Prod.fst = inv.items.map Prod.fst := by
  unfold Invoice.appendWorkLog at h
  split at h
  · cases h
    simp only [List.map_map]
    refine List.map_congr_left ?_
    intro p hp
    unfold updItem
    by_cases hd : p.1 = wl.date <;> simp [hd]
  · cases h

/-- C3 (amended): for an HOURLY invoice the code still applies the
final `round(rate, 4)`, so `net_rate = round(rate, 4)` — equal to the
rate exactly whenever the rate has at most 4 decimal places — and
`invoice_amount = round(net_rate * sum_of_daily_hours, 4)`.  The
original claim's `net_rate = rate` fails for rates needing more than 4
decimal places; see the counterexample. -/
theorem claim_C3 (inv : Invoice) (hm : inv.billing_mode = BillMode.HOURLY)
    (hi : ∀ p ∈ inv.items, p.2.billing_mode = BillMode.HOURLY) :
    inv.net_rate = roundTo4 inv.rate ∧
    ((inv.rate * 10000).den = 1 → inv.net_rate = inv.rate) ∧
    inv.invoice_amount =
      roundTo4 (inv.net_rate * (inv.items.map (fun p => p.2.total_work_hours)).sum) := by
  have h1 : inv.net_rate = roundTo4 inv.rate := by
    simp [Invoice.net_rate, hm]
  refine ⟨h1, fun hden => ?_, ?_⟩
  · rw [h1, roundTo4_of_den_one inv.rate hden]
  · have h2 : inv.items.map (fun p => p.2.work_unit) =
        inv.items.map (fun p => p.2.total_work_hours) := by
      refine List.map_congr_left ?_
      intro p hp
      unfold InvoiceItem.work_unit
      rw [if_pos (hi p hp)]
    unfold Invoice.invoice_amount Invoice.total_work_unit
    rw [h2]

/-- Counterexample to C3 as stated: an HOURLY invoice whose rate
0.00004 needs more than 4 decimal places has `net_rate = 0 ≠ rate`,
because the code rounds the rate to 4 places even in HOURLY mode. -/
theorem claim_C3_cex :
    invTinyHourly.billing_mode = BillMode.HOURLY ∧
    invTinyHourly.net_rate ≠ invTinyHourly.rate :=
  ⟨rfl, by decide⟩

/-- Witness for C3 at rate 50 (at most 4 decimal places): the rounding
is the identity, so `net_rate` equals the rate exactly. -/
theorem claim_C3_witness : invHourly50.net_rate = invHourly50.rate :=
  (claim_C3 invHourly50 rfl
    (fun p hp => (mkInvoice_item_fields _ _ _ _ p hp).1)).2.1 (by decide)

/-- Looking up the appended log's date after the update yields the old
item with the log appended at the end. -/
theorem lookup_map_updItem_hit (wl : WorkLog) :
    ∀ (l : List (ℤ × InvoiceItem)) (it : InvoiceItem),
      l.lookup wl.date = some it →
      (l.map (updItem wl)).lookup wl.date =
        some { it with work_logs := it.work_logs ++ [wl] } := by
  intro l
  induction l with
  | nil =>
    intro it h
    simp at h
  | cons p t ih =>
    intro it h
    obtain ⟨k, v⟩ := p
    rw [List.map_cons]
    by_cases hk : wl.date = k
    · subst hk
      rw [List.lookup_cons_self] at h
      have hv : v = it := Option.some.inj h
      have hu : updItem wl (wl.date, v) =
          (wl.date, { v with work_logs := v.work_logs ++ [wl] }) := by
        unfold updItem
        rw [if_pos rfl]
      rw [hu, List.lookup_cons_self, hv]
    · have hbeq : (wl.date == k) = false := beq_eq_false_iff_ne.mpr hk
      rw [List.lookup_cons, hbeq] at h
      have hu : updItem wl (k, v) = (k, v) := by
        unfold updItem
        rw [if_neg (fun hc => hk hc.symm)]
      rw [hu, List.lookup_cons, hbeq]
      exact ih it h

/-- Looking up any other date is unaffected by the update. -/
theorem lookup_map_updItem_miss (wl : WorkLog) (d : ℤ) (hd : d ≠ wl.date) :
    ∀ l : List (ℤ × InvoiceItem), (l.map (updItem wl)).lookup d = l.lookup d := by
  intro l
  induction l with
  | nil => rfl
  | cons p t ih =>
    obtain ⟨k, v⟩ := p
    rw [List.map_cons]
    by_cases hk : k = wl.date
    · subst hk
      have hbeq : (d == wl.date) = false := beq_eq_false_iff_ne.mpr hd
      have hu : updItem wl (wl.date, v) =
          (wl.date, { v with work_logs := v.work_logs ++ [wl] }) := by
        unfold updItem
        rw [if_pos rfl]
      rw [hu, List.lookup_cons, List.lookup_cons, hbeq]
      exact ih
    · have hu : updItem wl (k, v) = (k, v) := by
        unfold updItem
        rw [if_neg hk]
      rw [hu, List.lookup_cons, List.lookup_cons]
      cases hdk : (d == k)
      · exact ih
      · rfl

/-- C6: an invoice constructed over a span `s ≤ e` starts with exactly
`(e - s).days + 1` items — a unique entry for every calendar day of the
inclusive span, each with an empty work-log list — and the only
mutating operation, appending a fetched work log, never adds, removes
or re-keys an entry. -/
theorem claim_C6 (s e : PyDate) (r : ℚ) (m : BillMode)
    (h : toOrdinal s ≤ toOrdinal e) :
    (mkInvoice s e r m).items.length = (toOrdinal e - toOrdinal s).toNat + 1 ∧
    ((mkInvoice s e r m).items.map Prod.fst).Nodup ∧
    (∀ d : ℤ, d ∈ (mkInvoice s e r m).items.map Prod.fst ↔
      (toOrdinal s ≤ d ∧ d ≤ toOrdinal e)) ∧
    (∀ p ∈ (mkInvoice s e r m).items, p.2.work_logs = []) ∧
    (∀ (inv inv' : Invoice) (wl : WorkLog), inv.appendWorkLog wl = some inv' →
      inv'.items.map Prod.fst = inv.items.map Prod.fst) := by
  have hk := mkInvoice_keys s e r m
  refine ⟨?_, ?_, ?_, ?_, appendWorkLog_keys⟩
  · have hlen := congrArg List.length hk
    rw [List.length_map] at hlen
    rw [hlen, ordRange_length]
    omega
  · rw [hk]
    exact ordRange_nodup _ _
  · intro d
    rw [hk]
    exact mem_ordRange _ _ d
  · intro p hp
    exact (mkInvoice_item_fields s e r m p hp).2.2

/-- Witness for C6: the week 2021-01-23 .. 2021-01-29 yields exactly 7
items. -/
theorem claim_C6_witness :
    toOrdinal ⟨2021, 1, 23⟩ ≤ toOrdinal ⟨2021, 1, 29⟩ ∧
    (mkInvoice ⟨2021, 1, 23⟩ ⟨2021, 1, 29⟩ 9680 BillMode.MONTHLY).items.length =
      (toOrdinal ⟨2021, 1, 29⟩ - toOrdinal ⟨2021, 1, 23⟩).toNat + 1 :=
  ⟨by decide, (claim_C6 ⟨2021, 1, 23⟩ ⟨2021, 1, 29⟩ 9680 BillMode.MONTHLY (by decide)).1⟩

/-- C8: for an invoice whose item keys are exactly the span `[so, eo]`
(as every freshly constructed invoice's are), a fetched work log dated
inside the span is appended to the item keyed by exactly its date and
every other item is untouched, while a work log dated outside the span
makes the append step fail fatally (`KeyError`, modelled as `none`)
rather than being dropped or reassigned. -/
theorem claim_C8 (inv : Invoice) (so eo : ℤ)
    (h : inv.items.map Prod.fst = ordRange so eo) (wl : WorkLog) :
    (so ≤ wl.date → wl.date ≤ eo →
      ∃ inv', inv.appendWorkLog wl = some inv' ∧
        (∀ it : InvoiceItem, inv.items.lookup wl.date = some it →
          inv'.items.lookup wl.date =
            some { it with work_logs := it.work_logs ++ [wl] }) ∧
        (∀ d : ℤ, d ≠ wl.date → inv'.items.lookup d = inv.items.lookup d)) ∧
    ((wl.date < so ∨ eo < wl.date) → inv.appendWorkLog wl = none) := by
  constructor
  · intro h1 h2
    have hmem : wl.date ∈ inv.items.map Prod.fst := by
      rw [h]
      exact (mem_ordRange so eo wl.date).mpr ⟨h1, h2⟩
    have hany : inv.items.any (fun p => p.1 == wl.date) = true := by
      rw [List.mem_map] at hmem
      obtain ⟨p, hp, hpd⟩ := hmem
      rw [List.any_eq_true]
      exact ⟨p, hp, beq_iff_eq.mpr hpd⟩
    refine ⟨{ inv with items := inv.items.map (updItem wl) }, ?_, ?_, ?_⟩
    · unfold Invoice.appendWorkLog
      rw [if_pos hany]
    · intro it hit
      exact lookup_map_updItem_hit wl inv.items it hit
    · intro d hd
      exact lookup_map_updItem_miss wl d hd inv.items
  · intro hout
    have hmem : wl.date ∉ inv.items.map Prod.fst := by
      rw [h, mem_ordRange]
      omega
    have hnot : ¬(inv.items.any (fun p => p.1 == wl.date) = true) := by
      intro hany
      rw [List.any_eq_true] at hany
      obtain ⟨p, hp, hpd⟩ := hany
      exact hmem (List.mem_map.mpr ⟨p, hp, beq_iff_eq.mp hpd⟩)
    unfold Invoice.appendWorkLog
    rw [if_neg hnot]

/-- Witness for C8: appending a Sunday 2021-01-24 work log to the
invoice of the week 2021-01-23 .. 2021-01-29 succeeds. -/
theorem claim_C8_witness :
    ∃ inv', invJanMonthly.appendWorkLog wlSun2h = some inv' := by
  obtain ⟨inv', h1, -, -⟩ :=
    (claim_C8 invJanMonthly (toOrdinal ⟨2021, 1, 23⟩) (toOrdinal ⟨2021, 1, 29⟩)
      (mkInvoice_keys ⟨2021, 1, 23⟩ ⟨2021, 1, 29⟩ 9680 BillMode.MONTHLY) wlSun2h).1
      (by decide) (by decide)
  exact ⟨inv', h1⟩
